import Mathlib

/-!
Shallow embedding of `tplink_smartplug.py` (TP-Link Wi-Fi Smart Plug Protocol
Client) and proofs about its codec (autokey XOR cipher + 4-byte length framing),
its transport wrapper `send_command`, and its time-sync cycle `update_time`.

Byte strings are modelled as `List Nat` (each element a byte value, or a
character code point on the Python `str` side; XOR of values below 256 stays
below 256, so the two views coincide on byte data).
-/

/-- `pack(">I", n)` from the source: the 4-byte big-endian encoding of `n`.
Python raises for `n ≥ 2^32`; here the bytes are reduced mod 256, which agrees
with Python on the whole domain `n < 2^32`. -/
def packBE32 (n : Nat) : List Nat :=
  [n / 16777216 % 256, n / 65536 % 256, n / 256 % 256, n % 256]

/-- Big-endian interpretation of a byte list, used to state what the 4-byte
length header decodes to. -/
def decodeBE (l : List Nat) : Nat :=
  l.foldl (fun a b => 256 * a + b) 0

/-- The loop body of `encrypt`:
`for i in string: a = key ^ ord(i); key = a; result += bytes([a])`.
`key` is the running key byte, `result` the accumulated output. -/
def encryptLoop (key : Nat) (result : List Nat) : List Nat → List Nat
  | [] => result
  | i :: rest => encryptLoop (key ^^^ i) (result ++ [key ^^^ i]) rest

/-- `encrypt` from the source. Note: the source initializes
`result = pack(">I", len(string))`, so the returned value is the 4-byte
big-endian plaintext length followed by the autokey-XOR stream with
start key 171 (the function performs framing and ciphering together). -/
def encrypt (string : List Nat) : List Nat :=
  encryptLoop 171 (packBE32 string.length) string

/-- The loop body of `decrypt`:
`for i in string: a = key ^ i; key = i; result += chr(a)`.
The key update takes the input (ciphertext) byte, not the output byte. -/
def decryptLoop (key : Nat) (result : List Nat) : List Nat → List Nat
  | [] => result
  | i :: rest => decryptLoop i (result ++ [key ^^^ i]) rest

/-- `decrypt` from the source: autokey-XOR with start key 171, key driven by
the ciphertext byte; no length header involved. -/
def decrypt (string : List Nat) : List Nat :=
  decryptLoop 171 [] string

/-- The cipher recurrence of spec §4.1 in direct recursive form:
`c_i = k_{i-1} XOR p_i` with key update `k_i = c_i`, start key `k`. -/
def cipherStream (k : Nat) : List Nat → List Nat
  | [] => []
  | p :: ps => (k ^^^ p) :: cipherStream (k ^^^ p) ps

/-- The decryption recurrence of spec §4.1 in direct recursive form:
`p_i = k_{i-1} XOR c_i` with key update `k_i = c_i` (the ciphertext byte),
start key `k`. -/
def plainStream (k : Nat) : List Nat → List Nat
  | [] => []
  | c :: cs => (k ^^^ c) :: plainStream c cs

theorem encryptLoop_eq (xs : List Nat) : ∀ (k : Nat) (acc : List Nat),
    encryptLoop k acc xs = acc ++ cipherStream k xs := by
  induction xs with
  | nil => intro k acc; simp [encryptLoop, cipherStream]
  | cons a as ih =>
    intro k acc
    simp [encryptLoop, cipherStream, ih]

theorem decryptLoop_eq (xs : List Nat) : ∀ (k : Nat) (acc : List Nat),
    decryptLoop k acc xs = acc ++ plainStream k xs := by
  induction xs with
  | nil => intro k acc; simp [decryptLoop, plainStream]
  | cons a as ih =>
    intro k acc
    simp [decryptLoop, plainStream, ih]

theorem encrypt_eq (x : List Nat) :
    encrypt x = packBE32 x.length ++ cipherStream 171 x := by
  simp [encrypt, encryptLoop_eq]

theorem decrypt_eq (y : List Nat) :
    decrypt y = plainStream 171 y := by
  simp [decrypt, decryptLoop_eq]

theorem packBE32_length (n : Nat) : (packBE32 n).length = 4 := rfl

theorem encrypt_drop4 (x : List Nat) :
    (encrypt x).drop 4 = cipherStream 171 x := by
  rw [encrypt_eq, ← packBE32_length x.length, List.drop_left]

theorem encrypt_take4 (x : List Nat) :
    (encrypt x).take 4 = packBE32 x.length := by
  rw [encrypt_eq, ← packBE32_length x.length, List.take_left]

theorem plainStream_cipherStream (xs : List Nat) : ∀ k : Nat,
    plainStream k (cipherStream k xs) = xs := by
  induction xs with
  | nil => intro k; simp [cipherStream, plainStream]
  | cons a as ih =>
    intro k
    have hk : k ^^^ (k ^^^ a) = a := by
      rw [← Nat.xor_assoc, Nat.xor_self, Nat.zero_xor]
    simp [cipherStream, plainStream, ih, hk]

theorem cipherStream_length (xs : List Nat) : ∀ k : Nat,
    (cipherStream k xs).length = xs.length := by
  induction xs with
  | nil => intro k; simp [cipherStream]
  | cons a as ih => intro k; simp [cipherStream, ih]

theorem plainStream_length (xs : List Nat) : ∀ k : Nat,
    (plainStream k xs).length = xs.length := by
  induction xs with
  | nil => intro k; simp [plainStream]
  | cons a as ih => intro k; simp [plainStream, ih]

/-- Position-wise form of the encryption recurrence: the `i`-th output byte is
the `i`-th input byte XORed with the previous output byte (the start key for
`i = 0`). -/
theorem cipherStream_getD (p : List Nat) : ∀ k i : Nat, i < p.length →
    (cipherStream k p).getD i 0 =
      p.getD i 0 ^^^ (if i = 0 then k else (cipherStream k p).getD (i - 1) 0) := by
  induction p with
  | nil => intro k i h; simp at h
  | cons a as ih =>
    intro k i h
    match i with
    | 0 => simp [cipherStream, Nat.xor_comm]
    | 1 =>
      have h1 : 0 < as.length := by simpa using h
      have := ih (k ^^^ a) 0 h1
      simpa [cipherStream] using this
    | Nat.succ (Nat.succ j) =>
      have hj : j + 1 < as.length := by simpa using h
      have := ih (k ^^^ a) (j + 1) hj
      simpa [cipherStream] using this

/-- Position-wise form of the decryption recurrence: the `i`-th output byte is
the `i`-th input (ciphertext) byte XORed with the previous input byte (the
start key for `i = 0`). -/
theorem plainStream_getD (y : List Nat) : ∀ k j : Nat, j < y.length →
    (plainStream k y).getD j 0 =
      y.getD j 0 ^^^ (if j = 0 then k else y.getD (j - 1) 0) := by
  induction y with
  | nil => intro k j h; simp at h
  | cons c cs ih =>
    intro k j h
    match j with
    | 0 => simp [plainStream, Nat.xor_comm]
    | 1 =>
      have h1 : 0 < cs.length := by simpa using h
      have := ih c 0 h1
      simpa [plainStream] using this
    | Nat.succ (Nat.succ m) =>
      have hm : m + 1 < cs.length := by simpa using h
      have := ih c (m + 1) hm
      simpa [plainStream] using this

/-- Decoding the 4 bytes produced by `pack(">I", n)` recovers `n` whenever
`n < 2^32` (the only values Python accepts). -/
theorem decodeBE_packBE32 (n : Nat) (h : n < 4294967296) :
    decodeBE (packBE32 n) = n := by
  simp only [decodeBE, packBE32, List.foldl]
  omega

/-- The predefined command catalog from the source (`commands` dict); literal
braces of the JSON bodies are written with hex escapes. -/
def commands : List (String × String) :=
  [("info", "\x7b\"system\":\x7b\"get_sysinfo\":\x7b\x7d\x7d\x7d"),
   ("on", "\x7b\"system\":\x7b\"set_relay_state\":\x7b\"state\":1\x7d\x7d\x7d"),
   ("off", "\x7b\"system\":\x7b\"set_relay_state\":\x7b\"state\":0\x7d\x7d\x7d"),
   ("ledoff", "\x7b\"system\":\x7b\"set_led_off\":\x7b\"off\":1\x7d\x7d\x7d"),
   ("ledon", "\x7b\"system\":\x7b\"set_led_off\":\x7b\"off\":0\x7d\x7d\x7d"),
   ("cloudinfo", "\x7b\"cnCloud\":\x7b\"get_info\":\x7b\x7d\x7d\x7d"),
   ("wlanscan", "\x7b\"netif\":\x7b\"get_scaninfo\":\x7b\"refresh\":0\x7d\x7d\x7d"),
   ("time", "\x7b\"time\":\x7b\"get_time\":\x7b\x7d\x7d\x7d"),
   ("schedule", "\x7b\"schedule\":\x7b\"get_rules\":\x7b\x7d\x7d\x7d"),
   ("countdown", "\x7b\"count_down\":\x7b\"get_rules\":\x7b\x7d\x7d\x7d"),
   ("antitheft", "\x7b\"anti_theft\":\x7b\"get_rules\":\x7b\x7d\x7d\x7d"),
   ("reboot", "\x7b\"system\":\x7b\"reboot\":\x7b\"delay\":1\x7d\x7d\x7d"),
   ("reset", "\x7b\"system\":\x7b\"reset\":\x7b\"delay\":1\x7d\x7d\x7d"),
   ("energy", "\x7b\"emeter\":\x7b\"get_realtime\":\x7b\x7d\x7d\x7d")]

/-- The code points of a Python `str`, as fed to `ord` by `encrypt`. -/
def strBytes (s : String) : List Nat :=
  s.data.map Char.toNat

/-- Outcome of the single socket exchange attempted by `send_command`:
the three socket phases that can raise `socket.error` (connect — including
connect timeout, refusal, unreachability —, send, receive), or a successful
exchange delivering the raw reply bytes read by `recv(2048)`. -/
inductive SockOutcome where
  | connectErr
  | sendErr
  | recvErr
  | ok (data : List Nat)

/-- `send_command` from the source. The network is modelled as a function from
the bytes written (`encrypt cmd`, a single send) to the outcome of the single
exchange; the function consumes exactly one outcome, so no retry is
representable. Returns the Python return value (`decrypt(data[4:])` on
success, `None` on `socket.error`) paired with the error-log lines emitted
(`"Could not connect to host {ip}:{port}"` on `socket.error`). -/
def send_command (ip : String) (port : Nat) (cmd : List Nat)
    (net : List Nat → SockOutcome) : Option (List Nat) × List String :=
  match net (encrypt cmd) with
  | .ok data => (some (decrypt (data.drop 4)), [])
  | _ => (none, ["Could not connect to host " ++ ip ++ ":" ++ toString port])

/-- Leap-year test of the proleptic Gregorian calendar used by Python
`datetime`. -/
def isLeap (y : Nat) : Bool :=
  y % 4 == 0 && (y % 100 != 0 || y % 400 == 0)

/-- Days in the year before the first of each month (non-leap), indexed by
month number; mirrors `datetime._DAYS_BEFORE_MONTH`. -/
def daysBeforeMonthTable : List Nat :=
  [0, 0, 31, 59, 90, 120, 151, 181, 212, 243, 273, 304, 334]

/-- Days in year `y` strictly before month `m`. -/
def daysBeforeMonth (y m : Nat) : Nat :=
  daysBeforeMonthTable.getD m 0 + (if 2 < m && isLeap y then 1 else 0)

/-- Days before January 1st of year `y` in the proleptic Gregorian calendar
(`datetime._days_before_year`). -/
def daysBeforeYear (y : Nat) : Nat :=
  (y - 1) * 365 + (y - 1) / 4 - (y - 1) / 100 + (y - 1) / 400

/-- A time snapshot `{year, month, mday, hour, min, sec}`: the fields the
time-sync cycle extracts from the device reply, and the fields of
`datetime.now()` it uses (whole seconds; `datetime` subtraction on these
fields is exact). -/
structure TimeSnapshot where
  year : Nat
  month : Nat
  mday : Nat
  hour : Nat
  min : Nat
  sec : Nat

/-- `datetime.toordinal` on a snapshot's date. -/
def toOrdinal (t : TimeSnapshot) : Nat :=
  daysBeforeYear t.year + daysBeforeMonth t.year t.month + t.mday

/-- A snapshot as a second count, so that `datetime` subtraction
(`(a - b).total_seconds()`) is `toSeconds a - toSeconds b`. -/
def toSeconds (t : TimeSnapshot) : Int :=
  ((toOrdinal t * 86400 + t.hour * 3600 + t.min * 60 + t.sec : Nat) : Int)

/-- The observable outcome of one `update_time` cycle: a correction command
sent, no correction needed, the cycle skipped because the reply was falsy
(`None` or empty), or an exception caught by the cycle's `except` handler
(logged and likewise a no-op for the cycle). -/
inductive Outcome where
  | correctionSent
  | noCorrection
  | skipped
  | caughtError
deriving DecidableEq

/-- `update_time` from the source, one cycle. `rsp` is the value returned by
`send_command` for the time query (`none` models the `None` returned on a
socket error); `parsed` is the result of
`json.loads(rsp)["time"]["get_time"]` plus the `datetime(...)` construction —
an exogenous step that either yields the remote snapshot or raises (modelled
as `Except.error`, caught by the surrounding `except Exception`);
`timeLocal` is the `datetime.now()` snapshot. The decision mirrors
`abs((time_remote - time).total_seconds()) > 60`; the correction send's own
result is only logged, so it does not affect the outcome. -/
def update_time (rsp : Option (List Nat))
    (parsed : Except String TimeSnapshot) (timeLocal : TimeSnapshot) : Outcome :=
  match rsp with
  | none => .skipped
  | some r =>
    if r.isEmpty then .skipped
    else
      match parsed with
      | .error _ => .caughtError
      | .ok timeRemote =>
        if 60 < (toSeconds timeRemote - toSeconds timeLocal).natAbs then
          .correctionSent
        else
          .noCorrection

/-- The exogenous inputs of one cycle of the `while True` loop. -/
structure CycleEnv where
  rsp : Option (List Nat)
  parsed : Except String TimeSnapshot
  timeLocal : TimeSnapshot

/-- `n` iterations of the `while True: update_time(); sleep(5)` loop under an
arbitrary stream of exogenous inputs, collecting each cycle's outcome. -/
def runLoop (env : Nat → CycleEnv) : Nat → List Outcome
  | 0 => []
  | n + 1 =>
    update_time (env n).rsp (env n).parsed (env n).timeLocal :: runLoop env n

/-- Encrypting a sequence of messages: each call to `encrypt` re-initializes
`key = 171`; no cipher state survives from one call to the next. -/
def runMessages (msgs : List (List Nat)) : List (List Nat) :=
  msgs.map encrypt

/-- Nonempty reply, successful parse: the cycle decides purely on the drift. -/
theorem update_time_cons (b : Nat) (s : List Nat)
    (timeRemote timeLocal : TimeSnapshot) :
    update_time (some (b :: s)) (.ok timeRemote) timeLocal =
      if 60 < (toSeconds timeRemote - toSeconds timeLocal).natAbs then
        Outcome.correctionSent
      else Outcome.noCorrection := by
  simp [update_time]

/-- C1: Cipher round-trip: decrypting the ciphered stream of any byte
sequence `x` yields `x` back, independent of length or content. Since the
source's `encrypt` also prepends the 4-byte length frame, the code-level
round trip is: frame+encrypt, strip the 4-byte prefix, decrypt. The second
conjunct is the end-to-end scenario for the catalog's `"on"` relay body. -/
theorem decrypt_encrypt_roundtrip (x : List Nat) :
    decrypt ((encrypt x).drop 4) = x ∧
    decrypt ((encrypt (strBytes ((commands.lookup "on").getD ""))).drop 4)
      = strBytes ((commands.lookup "on").getD "") := by
  constructor
  · rw [encrypt_drop4, decrypt_eq, plainStream_cipherStream]
  · rw [encrypt_drop4, decrypt_eq, plainStream_cipherStream]

/-- C2: Time-Sync drift decision boundary: a correction is sent iff the
absolute drift between the device snapshot and the local snapshot is
strictly greater than 60 seconds; concretely, a drift of 60 s or 0 s sends
no correction, and a drift of 61 s does. -/
theorem update_time_drift_boundary (b : Nat) (s : List Nat)
    (timeRemote timeLocal : TimeSnapshot) :
    (update_time (some (b :: s)) (.ok timeRemote) timeLocal = .correctionSent ↔
      60 < (toSeconds timeRemote - toSeconds timeLocal).natAbs) ∧
    (update_time (some (b :: s)) (.ok timeRemote) timeLocal = .noCorrection ↔
      (toSeconds timeRemote - toSeconds timeLocal).natAbs ≤ 60) ∧
    update_time (some (b :: s)) (.ok ⟨2024, 1, 1, 0, 1, 0⟩) ⟨2024, 1, 1, 0, 0, 0⟩
      = .noCorrection ∧
    update_time (some (b :: s)) (.ok ⟨2024, 1, 1, 0, 1, 1⟩) ⟨2024, 1, 1, 0, 0, 0⟩
      = .correctionSent ∧
    update_time (some (b :: s)) (.ok ⟨2024, 1, 1, 0, 0, 0⟩) ⟨2024, 1, 1, 0, 0, 0⟩
      = .noCorrection := by
  refine ⟨?_, ?_, ?_, ?_, ?_⟩
  · rw [update_time_cons]; split_ifs with h <;> simp [h]
  · rw [update_time_cons]
    split_ifs with h
    · simp only [reduceCtorEq, false_iff]
      omega
    · simp only [true_iff]
      omega
  · rw [update_time_cons]
    norm_num [toSeconds, toOrdinal, daysBeforeYear, daysBeforeMonth,
      daysBeforeMonthTable, isLeap]
  · rw [update_time_cons]
    norm_num [toSeconds, toOrdinal, daysBeforeYear, daysBeforeMonth,
      daysBeforeMonthTable, isLeap]
  · rw [update_time_cons]
    norm_num [toSeconds, toOrdinal, daysBeforeYear, daysBeforeMonth,
      daysBeforeMonthTable, isLeap]

/-- C3: Time-Sync Loop fault tolerance: the loop always completes every
cycle (`runLoop` yields one outcome per cycle under any input stream); a
transport failure (`send_command` returning `None`) makes the cycle a
skip; a parse failure on a nonempty reply is caught and ends the cycle as
`caughtError` (a logged no-op); an empty reply is skipped before parsing.
No failure escapes a cycle or terminates the loop. -/
theorem update_time_fault_tolerance :
    (∀ (env : Nat → CycleEnv) (n : Nat), (runLoop env n).length = n) ∧
    (∀ parsed timeLocal, update_time none parsed timeLocal = .skipped) ∧
    (∀ ip port cmd net parsed timeLocal,
      (send_command ip port cmd net).1 = none →
      update_time (send_command ip port cmd net).1 parsed timeLocal = .skipped) ∧
    (∀ (b : Nat) (s : List Nat) timeLocal e,
      update_time (some (b :: s)) (.error e) timeLocal = .caughtError) ∧
    (∀ timeLocal e, update_time (some []) (.error e) timeLocal = .skipped) := by
  refine ⟨?_, ?_, ?_, ?_, ?_⟩
  · intro env n
    induction n with
    | zero => simp [runLoop]
    | succ m ih => simp [runLoop, ih]
  · intro parsed timeLocal; simp [update_time]
  · intro ip port cmd net parsed timeLocal h
    rw [h]; simp [update_time]
  · intro b s timeLocal e; simp [update_time]
  · intro timeLocal e; simp [update_time]

theorem update_time_fault_tolerance_witness :
    update_time
      (send_command "10.0.0.9" 9999 [] (fun _ => SockOutcome.connectErr)).1
      (Except.error "bad json") ⟨2024, 1, 1, 0, 0, 0⟩ = Outcome.skipped :=
  update_time_fault_tolerance.2.2.1 "10.0.0.9" 9999 []
    (fun _ => SockOutcome.connectErr) (Except.error "bad json")
    ⟨2024, 1, 1, 0, 0, 0⟩ rfl

/-- C4: Transport error handling: every socket-level failure (connect, send
or receive) makes `send_command` return the error result — `None` plus the
logged message naming the attempted host and port — instead of raising; and
the result depends only on the one socket outcome for the one framed
message sent, so no retry occurs inside the function. -/
theorem send_command_socket_error (ip : String) (port : Nat) (cmd : List Nat)
    (net : List Nat → SockOutcome)
    (h : net (encrypt cmd) = .connectErr ∨ net (encrypt cmd) = .sendErr ∨
      net (encrypt cmd) = .recvErr) :
    send_command ip port cmd net =
      (none, ["Could not connect to host " ++ ip ++ ":" ++ toString port]) ∧
    (∀ net2 : List Nat → SockOutcome, net2 (encrypt cmd) = net (encrypt cmd) →
      send_command ip port cmd net2 = send_command ip port cmd net) := by
  constructor
  · rcases h with h | h | h <;> simp [send_command, h]
  · intro net2 h2
    simp [send_command, h2]

theorem send_command_socket_error_witness :
    send_command "192.168.0.10" 9999 [] (fun _ => SockOutcome.connectErr) =
      (none, ["Could not connect to host 192.168.0.10:9999"]) :=
  (send_command_socket_error "192.168.0.10" 9999 []
    (fun _ => SockOutcome.connectErr) (Or.inl rfl)).1

/-- C5: Cipher algorithm: with start key 171, the `i`-th ciphertext byte is
`p_i XOR k_{i-1}` where the key updates to the just-produced ciphertext
byte, and the `j`-th decrypted byte is `c_j XOR k_{j-1}` where the key
updates to the just-consumed ciphertext byte; both directions preserve
length. (The ciphertext proper is `encrypt`'s output after its 4-byte
length header.) -/
theorem cipher_algorithm (x y : List Nat) (i j : Nat)
    (hi : i < x.length) (hj : j < y.length) :
    ((encrypt x).drop 4).getD i 0 =
      x.getD i 0 ^^^ (if i = 0 then 171 else ((encrypt x).drop 4).getD (i - 1) 0) ∧
    (decrypt y).getD j 0 =
      y.getD j 0 ^^^ (if j = 0 then 171 else y.getD (j - 1) 0) ∧
    ((encrypt x).drop 4).length = x.length ∧
    (decrypt y).length = y.length := by
  refine ⟨?_, ?_, ?_, ?_⟩
  · rw [encrypt_drop4]; exact cipherStream_getD x 171 i hi
  · rw [decrypt_eq]; exact plainStream_getD y 171 j hj
  · rw [encrypt_drop4]; exact cipherStream_length x 171
  · rw [decrypt_eq]; exact plainStream_length y 171

theorem cipher_algorithm_witness :
    ((encrypt [104, 105]).drop 4).getD 1 0 =
      [104, 105].getD 1 0 ^^^
        (if 1 = 0 then 171 else ((encrypt [104, 105]).drop 4).getD (1 - 1) 0) :=
  (cipher_algorithm [104, 105] [195, 170] 1 1 (by decide) (by decide)).1

/-- C6 as stated is false: `encrypt` prepends the 4-byte length header, so
already for the empty input `len(encrypt(x)) ≠ len(x)` (4 ≠ 0). -/
theorem encrypt_length_counterexample :
    ¬ (encrypt ([] : List Nat)).length = ([] : List Nat).length := by decide

/-- C6 amended: `len(encrypt(x)) = len(x) + 4`; equivalently the ciphertext
after the 4-byte length header has exactly `len(x)` bytes — the cipher
proper is length-preserving. -/
theorem encrypt_length (x : List Nat) :
    (encrypt x).length = x.length + 4 ∧
    ((encrypt x).drop 4).length = x.length := by
  constructor
  · rw [encrypt_eq, List.length_append, packBE32_length, cipherStream_length]
    omega
  · rw [encrypt_drop4]; exact cipherStream_length x 171

/-- C7: Framing format: the first 4 bytes of the framed message decode (as a
big-endian unsigned integer) to the plaintext byte count, and the remainder
is the autokey-XOR ciphertext of the plaintext. -/
theorem frame_format (x : List Nat) (h : x.length < 4294967296) :
    decodeBE ((encrypt x).take 4) = x.length ∧
    (encrypt x).drop 4 = cipherStream 171 x := by
  constructor
  · rw [encrypt_take4]; exact decodeBE_packBE32 x.length h
  · exact encrypt_drop4 x

theorem frame_format_witness :
    decodeBE ((encrypt [1, 2, 3]).take 4) = ([1, 2, 3] : List Nat).length :=
  (frame_format [1, 2, 3] (by decide)).1

/-- C8: Unframing: on a successful exchange the receiver drops the first 4
bytes of the raw reply unconditionally (no validation of the advertised
length) and decrypts the rest; the plaintext returned depends only on the
bytes after the first 4, never on the prefix value. -/
theorem unframe_ignores_prefix (ip : String) (port : Nat) (cmd : List Nat)
    (a b c d a2 b2 c2 d2 : Nat) (rest data : List Nat) :
    send_command ip port cmd (fun _ => .ok data) =
      (some (decrypt (data.drop 4)), []) ∧
    send_command ip port cmd (fun _ => .ok (a :: b :: c :: d :: rest)) =
      (some (decrypt rest), []) ∧
    send_command ip port cmd (fun _ => .ok (a :: b :: c :: d :: rest)) =
      send_command ip port cmd (fun _ => .ok (a2 :: b2 :: c2 :: d2 :: rest)) := by
  refine ⟨rfl, ?_, ?_⟩
  · simp [send_command]
  · simp [send_command]

/-- C9: Cipher determinism: the ciphertext of `x` is the same whatever
message was encrypted before it (no key state persists across messages),
and every encryption starts from the fixed constant key 171. -/
theorem encrypt_deterministic (prev1 prev2 x : List Nat) :
    (runMessages [prev1, x])[1]? = (runMessages [prev2, x])[1]? ∧
    (runMessages [prev1, x])[1]? = some (encrypt x) ∧
    encrypt x = packBE32 x.length ++ cipherStream 171 x := by
  refine ⟨?_, ?_, encrypt_eq x⟩ <;> simp [runMessages]

/-- C10: Short replies: a raw reply of at most 4 bytes makes `send_command`
return the empty string as a successful result (`Some ""`, not an error);
in the time-sync cycle this empty reply takes the same skip branch as a
transport failure (`None`) — both are falsy — so the cycle is skipped and
no correction is sent. -/
theorem short_reply_skipped (ip : String) (port : Nat) (cmd : List Nat)
    (data : List Nat) (h : data.length ≤ 4)
    (parsed : Except String TimeSnapshot) (timeLocal : TimeSnapshot) :
    send_command ip port cmd (fun _ => .ok data) = (some [], []) ∧
    update_time (send_command ip port cmd (fun _ => .ok data)).1 parsed timeLocal
      = .skipped ∧
    update_time none parsed timeLocal = .skipped := by
  have hd : data.drop 4 = [] := List.drop_eq_nil_of_le h
  have h1 : send_command ip port cmd (fun _ => .ok data) = (some [], []) := by
    simp [send_command, hd, decrypt, decryptLoop]
  refine ⟨h1, ?_, by simp [update_time]⟩
  rw [h1]
  simp [update_time]

theorem short_reply_skipped_witness :
    send_command "10.0.0.2" 9999 [] (fun _ => SockOutcome.ok [0, 0, 0]) =
      (some [], []) ∧
    update_time
      (send_command "10.0.0.2" 9999 [] (fun _ => SockOutcome.ok [0, 0, 0])).1
      (Except.error "malformed") ⟨2024, 1, 1, 0, 0, 0⟩ = Outcome.skipped ∧
    update_time none (Except.error "malformed") ⟨2024, 1, 1, 0, 0, 0⟩
      = Outcome.skipped :=
  short_reply_skipped "10.0.0.2" 9999 [] [0, 0, 0] (by decide)
    (Except.error "malformed") ⟨2024, 1, 1, 0, 0, 0⟩
